import Mathlib

/-!
Shallow embedding of the `ArticleGenerator` batch pipeline
(`src/app/lib/ArticleGenerator`-style module, file `part_000`).

Modelling conventions:
* JavaScript strings are modelled as `List Char` (`Str`).
* JavaScript IEEE-754 numbers are modelled as exact rationals, with the
  non-finite values `NaN` and `+Infinity` represented explicitly by the
  `JSNum` type (integer-only quantities are modelled as `Nat`).
* The external completion service (`DeepSeekClient.chat`) is an oracle:
  a call either throws (`none`) or returns the response text (`some s`).
* The filesystem is a small explicit state (`FS`) holding the three files
  the module touches (`progress.json`, `articles.json`, `articles.json.tmp`),
  and runs additionally emit an event trace (`Ev`) recording the order of
  checkpoint/output operations.
-/

namespace PolAi

abbrev Str := List Char

/-- A JavaScript number as produced by the arithmetic in this module:
either a finite value (modelled exactly as a rational), `NaN`, or
`+Infinity`.  The only operations the module performs are division of two
non-negative integers, multiplication by 100, addition, and division by a
positive count, so negative infinity never arises. -/
inductive JSNum where
  | num (q : ℚ)
  | nan
  | posInf
  deriving DecidableEq, Repr

/-- JS division `a / n` of two natural numbers: `0/0 = NaN`, `a/0 = +Infinity`
for `a > 0`, exact otherwise. -/
def jsDivNat (a n : Nat) : JSNum :=
  if n = 0 then (if a = 0 then .nan else .posInf)
  else .num ((a : ℚ) / (n : ℚ))

/-- JS multiplication by the literal `100` (as in `(x / y) * 100`). -/
def jsMul100 : JSNum → JSNum
  | .num q => .num (q * 100)
  | .nan => .nan
  | .posInf => .posInf

/-- JS addition restricted to the values occurring here (`NaN` is absorbing;
`+Infinity + finite = +Infinity`). -/
def jsAdd : JSNum → JSNum → JSNum
  | .num a, .num b => .num (a + b)
  | .nan, _ => .nan
  | _, .nan => .nan
  | .posInf, _ => .posInf
  | .num _, .posInf => .posInf

/-- JS division of an accumulated number by a natural count. -/
def jsDivByNat (x : JSNum) (n : Nat) : JSNum :=
  match x with
  | .num a => if n = 0 then (if a = 0 then .nan else .posInf) else .num (a / (n : ℚ))
  | .nan => .nan
  | .posInf => .posInf

/-- The rational carried by a finite `JSNum` (0 for the non-finite values;
only ever applied where finiteness has been established). -/
def JSNum.toQ : JSNum → ℚ
  | .num q => q
  | _ => 0

/-! ### Character / string helpers (JS semantics) -/

/-- JS whitespace as matched by `\s`, `String.prototype.trim` and friends:
space, tab, LF, CR, vertical tab, form feed, NBSP, BOM. -/
def jsIsSpace (c : Char) : Bool :=
  c = ' ' || c = '\t' || c = '\n' || c = '\r' ||
  c = Char.ofNat 0x0B || c = Char.ofNat 0x0C ||
  c = Char.ofNat 0xA0 || c = Char.ofNat 0xFEFF

/-- `String.prototype.trim`. -/
def strTrim (s : Str) : Str :=
  ((s.dropWhile jsIsSpace).reverse.dropWhile jsIsSpace).reverse

/-- `s.replace(/\*\*/g, '')`: remove non-overlapping `**` pairs left to right. -/
def removeStarStar : Str → Str
  | '*' :: '*' :: rest => removeStarStar rest
  | c :: rest => c :: removeStarStar rest
  | [] => []

/-- `parseInt(ds, 10)` on a non-empty digit string (JS numbers are modelled
as exact integers). -/
def digitsToNat (ds : Str) : Nat :=
  ds.foldl (fun n c => n * 10 + (c.toNat - '0'.toNat)) 0

/-! ### The classification-response parser

Source:
```
private parseAntisemiticResponse(response: string): [number, number] {
  const match = response.match(/(\d+)\/(\d+)/);
  if (!match) { return [0, 1]; }
  return [parseInt(match[1], 10), parseInt(match[2], 10)];
}
```
The regex `(\d+)\/(\d+)` is matched leftmost-first with greedy `\d+`.
Backtracking the first greedy digit run never helps (a shortened run is
followed by another digit, which cannot match `/`), so the engine's
behaviour is: at each start position in turn, take the maximal digit run;
the pattern matches there iff that run is non-empty and is followed by `/`
and at least one digit. -/

/-- One step of the regex engine: does `(\d+)\/(\d+)` match at the start of
`s`? -/
def isSlashAt (s : Str) : Bool :=
  let d1 := s.takeWhile Char.isDigit
  decide (d1 ≠ []) &&
    (match s.drop d1.length with
     | '/' :: r2 => decide (r2.takeWhile Char.isDigit ≠ [])
     | _ => false)

/-- The two captured digit runs of `(\d+)\/(\d+)` matching at the start of
`s` (meaningful only when `isSlashAt s`). -/
def extractSlash (s : Str) : Str × Str :=
  let d1 := s.takeWhile Char.isDigit
  match s.drop d1.length with
  | _ :: r2 => (d1, r2.takeWhile Char.isDigit)
  | [] => (d1, [])

/-- `response.match(/(\d+)\/(\d+)/)`: scan start positions left to right,
returning the two capture groups of the first match. -/
def findSlashMatch : Str → Option (Str × Str)
  | [] => none
  | c :: rest =>
    let s := c :: rest
    let d1 := s.takeWhile Char.isDigit
    if d1 = [] then findSlashMatch rest
    else
      match s.drop d1.length with
      | '/' :: r2 => if r2.takeWhile Char.isDigit = [] then findSlashMatch rest
                     else some (d1, r2.takeWhile Char.isDigit)
      | _ => findSlashMatch rest

/-- `parseAntisemiticResponse` (returns `[flagged, analyzed]`). -/
def parseAntisemiticResponse (response : Str) : Nat × Nat :=
  match findSlashMatch response with
  | none => (0, 1)
  | some (d1, d2) => (digitsToNat d1, digitsToNat d2)

/-! ### The summary-response parser

Source:
```
const headlineMatch = response.match(/HEADLINE:\s*(.+?)(?:\n|$)/i);
const articleMatch = response.match(/ARTICLE:\s*(.+?)(?:\n|$)/i);
let headline = headlineMatch?.[1]?.trim() ?? 'Untitled Thread';
let article = articleMatch?.[1]?.trim() ?? 'No content available';
headline = headline.replace(/\*\*/g, '').trim();
article = article.replace(/\*\*/g, '').trim();
```
For `LABEL:\s*(.+?)(?:\n|$)` at a given start position, after the (case
insensitive) label the engine runs greedy `\s*` then lazy `(.+?)` (where `.`
excludes `\n`) then `\n`-or-end.  For a fixed amount of consumed whitespace,
the lazy group is forced: it is the remaining text up to (excluding) the next
newline, and it must be non-empty and not start with `\n`.  Greedy
backtracking of `\s*` therefore yields: if anything follows the maximal
whitespace run, the group is that remainder up to the next newline;
otherwise (label followed only by whitespace) the group is the last
non-`\n` character of that whitespace run, if any. -/

/-- Case-insensitive `startsWith` (JS `i` flag, lower-casing both sides). -/
def startsWithCI : Str → Str → Bool
  | [], _ => true
  | _ :: _, [] => false
  | l :: ls, c :: cs => (c.toLower = l.toLower) && startsWithCI ls cs

/-- Run `\s*(.+?)(?:\n|$)` (with JS backtracking) on the text `t` following
a matched label; returns the captured group. -/
def tryMatchAfterLabel (t : Str) : Option Str :=
  let w := t.takeWhile jsIsSpace
  match t.drop w.length with
  | u :: us => some ((u :: us).takeWhile (fun c => c ≠ '\n'))
  | [] =>
    match w.reverse.dropWhile (fun c => c = '\n') with
    | [] => none
    | c :: _ => some [c]

/-- `response.match(/LABEL:\s*(.+?)(?:\n|$)/i)`: scan start positions left
to right; at each position where the label matches case-insensitively, try
the rest of the pattern; on failure resume scanning at the next position. -/
def findLabelCapture (label : Str) : Str → Option Str
  | [] => none
  | c :: rest =>
    if startsWithCI label (c :: rest) then
      match tryMatchAfterLabel ((c :: rest).drop label.length) with
      | some g => some g
      | none => findLabelCapture label rest
    else findLabelCapture label rest

/-- `parseArticleResponse` (returns `[headline, article]`); the word-count
logging and the completeness warning have no effect on the result. -/
def parseArticleResponse (response : Str) : Str × Str :=
  let headline :=
    match findLabelCapture "HEADLINE:".toList response with
    | some g => strTrim g
    | none => "Untitled Thread".toList
  let article :=
    match findLabelCapture "ARTICLE:".toList response with
    | some g => strTrim g
    | none => "No content available".toList
  (strTrim (removeStarStar headline), strTrim (removeStarStar article))

/-! ### Data model -/

/-- A post; of its many source fields only the comment body `com` is read by
this module.  `com : Option Str` models the optional text body; JS
`Boolean('')` is false, so the empty string is also filtered out below. -/
structure Post where
  no : Nat
  com : Option Str
  deriving DecidableEq, Repr

/-- A thread; only `no` and `posts` are read by this module.  An absent
`posts` array behaves identically to an empty one in every code path
(`!thread.posts || thread.posts.length === 0`, `thread.posts?.length ?? 0`),
so it is modelled as `[]`. -/
structure Thread where
  no : Nat
  posts : List Post
  deriving DecidableEq, Repr

structure AntisemiticStats where
  analyzedComments : Nat
  antisemiticComments : Nat
  percentage : JSNum
  deriving DecidableEq, Repr

structure ArticleMetadata where
  totalPosts : Nat
  analyzedPosts : Nat
  generatedAt : Nat
  deriving DecidableEq, Repr

/-- `ArticleAnalysis`: the per-thread analysis record. -/
structure ArticleAnalysis where
  threadId : Nat
  headline : Str
  article : Str
  antisemiticStats : AntisemiticStats
  metadata : ArticleMetadata
  deriving DecidableEq, Repr

structure BatchStats where
  totalThreads : Nat
  totalAnalyzedPosts : Nat
  averageAntisemiticPercentage : JSNum
  generatedAt : Nat
  deriving DecidableEq, Repr

/-- `ArticleBatch`: the final output artifact. -/
structure ArticleBatch where
  articles : List ArticleAnalysis
  batchStats : BatchStats
  deriving DecidableEq, Repr

/-! ### Sampler -/

/-- Modelled from the spec: `randomSample` is imported from
`../utils/array`, which is not part of the given sources.  Per spec §4.1 it
returns a uniformly-random size-`k` subset of the input, drawn without
replacement.  The randomness is modelled by an arbitrary permutation `perm`
of the input list (supplied by the run environment); the sample is its first
`k` elements. -/
def randomSample (perm : List α) (k : Nat) : List α :=
  perm.take k

/-- `getPostsToAnalyze`: sample `ceil(P * pct / 100)` posts (`pct` is the
configured `analysisPercentage`, default 30).  `perm` is the permutation
used by `randomSample` for this call. -/
def getPostsToAnalyze (pct : ℚ) (perm : List Post) (thread : Thread) : List Post :=
  if thread.posts.length = 0 then []
  else
    let totalPosts := thread.posts.length
    let postsToAnalyze := (⌈(totalPosts * pct) / 100⌉).toNat
    randomSample perm postsToAnalyze

/-! ### Sub-batcher (classification) -/

/-- `ANTISEMITIC_BATCH_SIZE`. -/
def ANTISEMITIC_BATCH_SIZE : Nat := 20

/-- The chunk-splitting loop `for (let i = 0; i < posts.length; i += 20)
posts.slice(i, i + 20)`, made structurally recursive on a step budget.
Each iteration consumes at least one element, so the budget
`posts.length` used by `chunkPosts` is never exhausted (the `0, _ :: _`
branch is unreachable there; see `chunkPostsGo_congr`). -/
def chunkPostsGo : Nat → List Str → List (List Str)
  | _, [] => []
  | 0, _ :: _ => []
  | fuel + 1, p :: ps =>
    (p :: ps).take ANTISEMITIC_BATCH_SIZE ::
      chunkPostsGo fuel ((p :: ps).drop ANTISEMITIC_BATCH_SIZE)

/-- The chunks visited by `for (let i = 0; i < posts.length; i += 20)
posts.slice(i, i + 20)`. -/
def chunkPosts (l : List Str) : List (List Str) := chunkPostsGo l.length l

/-- Loop body of `analyzeAntisemiticContent`, recursing chunk by chunk,
with the same step budget as `chunkPostsGo`.  `oracle i` is the outcome of
the completion call for chunk index `i` (`none` = the call threw, which is
caught and the chunk skipped).  On success the self-reported analyzed count
is validated against the actual chunk size and the actual size is used on
mismatch. -/
def analyzeChunksGo (oracle : Nat → Option Str) : Nat → Nat → List Str → Nat × Nat
  | _, _, [] => (0, 0)
  | 0, _, _ :: _ => (0, 0)
  | fuel + 1, idx, p :: ps =>
    let batchPosts := (p :: ps).take ANTISEMITIC_BATCH_SIZE
    let rest := analyzeChunksGo oracle fuel (idx + 1) ((p :: ps).drop ANTISEMITIC_BATCH_SIZE)
    match oracle idx with
    | none => rest
    | some response =>
      let parsed := parseAntisemiticResponse response
      let batchAnalyzed :=
        if parsed.2 ≠ batchPosts.length then batchPosts.length else parsed.2
      (parsed.1 + rest.1, batchAnalyzed + rest.2)

/-- `analyzeAntisemiticContent`: returns
`[totalAntisemiticCount, totalAnalyzed]`. -/
def analyzeAntisemiticContent (oracle : Nat → Option Str) (posts : List Str) : Nat × Nat :=
  analyzeChunksGo oracle posts.length 0 posts

/-! ### Run environment

The two kinds of completion calls and the sampling permutation are
deterministic functions of the thread (a "deterministic stub completion
service"); `now` stands in for `Date.now()`. -/

structure Env where
  /-- The permutation `randomSample` uses for a given thread's posts. -/
  samplePerm : Thread → List Post
  /-- Outcome of the summary-generation `chat` call for a thread
  (`none` = the call threw or its response had no usable content). -/
  articleChat : Thread → Option Str
  /-- Outcome of the classification `chat` call for a thread's chunk `i`. -/
  classifyChat : Thread → Nat → Option Str
  /-- `Date.now()`. -/
  now : Nat

/-! ### Thread analyzer -/

/-- The local `postsToAnalyze` of `analyzeThread`. -/
def postsToAnalyzeOf (pct : ℚ) (env : Env) (thread : Thread) : List Post :=
  getPostsToAnalyze pct (env.samplePerm thread) thread

/-- The local `validPosts` of `analyzeThread`:
`postsToAnalyze.map(post => post.com).filter(Boolean)` — both absent and
empty bodies are dropped (JS `Boolean('')` is `false`). -/
def validPostsOf (pct : ℚ) (env : Env) (thread : Thread) : List Str :=
  (((postsToAnalyzeOf pct env thread).map Post.com).filterMap id).filter
    (fun c => c ≠ [])

/-- `analyzeThread`: sample, filter empty bodies, generate the summary
(a thrown summary call propagates as a thread-level failure), then run the
chunked classification, and assemble the record.  The prompt texts feed only
the oracle calls and are elided; the stats logging has no effect. -/
def analyzeThread (pct : ℚ) (env : Env) (thread : Thread) : Except Unit ArticleAnalysis :=
  let postsToAnalyze := postsToAnalyzeOf pct env thread
  let totalPosts := thread.posts.length
  let validPosts := validPostsOf pct env thread
  match env.articleChat thread with
  | none => .error ()
  | some response =>
    let parsedArticle := parseArticleResponse response
    let analyzed := analyzeAntisemiticContent (env.classifyChat thread) validPosts
    .ok
      { threadId := thread.no
        headline := parsedArticle.1
        article := parsedArticle.2
        antisemiticStats :=
          { analyzedComments := analyzed.2
            antisemiticComments := analyzed.1
            percentage := jsMul100 (jsDivNat analyzed.1 analyzed.2) }
        metadata :=
          { totalPosts := totalPosts
            analyzedPosts := postsToAnalyze.length
            generatedAt := env.now } }

/-! ### Filesystem model -/

/-- Content of `progress.json` as seen by `loadProgress`: absent file,
unparsable/shapeless content, or a valid article list. -/
inductive ProgressData where
  | absent
  | corrupt
  | valid (articles : List ArticleAnalysis)
  deriving DecidableEq, Repr

/-- Content of `articles.json` / `articles.json.tmp`: a committed batch or
garbage left by an interrupted write. -/
inductive FileData where
  | batch (b : ArticleBatch)
  | garbage
  deriving DecidableEq, Repr

/-- The slice of the filesystem this module touches. -/
structure FS where
  progress : ProgressData
  output : Option FileData
  temp : Option FileData
  deriving DecidableEq, Repr

/-- Failure-injection points inside `saveOutput`. -/
inductive SaveFail where
  | mkdirFail
  | writeFail
  | renameFail
  deriving DecidableEq, Repr

/-- Failure injection for a run: whether checkpoint writes fail (caught and
logged), how the output commit fails (propagates), and whether the
checkpoint unlink fails (caught and ignored). -/
structure FailEnv where
  saveProgressFails : Bool
  outputFail : Option SaveFail
  deleteProgressFails : Bool
  deriving DecidableEq, Repr

/-- Observable filesystem events of a run, in order. -/
inductive Ev where
  /-- `loadProgress` read `progress.json`. -/
  | loadCkpt
  /-- `saveProgress` was invoked with this article list. -/
  | saveCkpt (articles : List ArticleAnalysis)
  /-- `fs.unlink(progressFile)` was attempted. -/
  | deleteCkpt
  /-- The full batch JSON was written to `articles.json.tmp`. -/
  | writeTempFile
  /-- `articles.json.tmp` was renamed onto `articles.json`. -/
  | renameTempFile
  /-- `articles.json.tmp` was unlinked during failure cleanup. -/
  | unlinkTempFile
  deriving DecidableEq, Repr

/-- `loadProgress`: returns `[]` on any read/parse failure or missing
`articles` field. -/
def loadProgress : ProgressData → List ArticleAnalysis
  | .valid articles => articles
  | _ => []

/-- `saveProgress`: best-effort checkpoint write; a failure is logged and
swallowed, leaving the file as it was. -/
def saveProgress (fails : Bool) (articles : List ArticleAnalysis) (fs : FS) : FS :=
  if fails then fs else { fs with progress := .valid articles }

/-- `saveOutput`: write the batch to the temp file, then atomically rename
it onto `articles.json`; on any failure, unlink the temp file if it exists
and rethrow.  Returns (success?, new filesystem, events).  A failed
`writeFile` is modelled as leaving a partial temp file, which the cleanup
then removes. -/
def saveOutput (fail : Option SaveFail) (b : ArticleBatch) (fs : FS) :
    Bool × FS × List Ev :=
  match fail with
  | some .mkdirFail =>
    -- mkdir threw before the temp write; cleanup unlinks a pre-existing temp
    if fs.temp.isSome then (false, { fs with temp := none }, [.unlinkTempFile])
    else (false, fs, [])
  | some .writeFail =>
    -- writeFile threw, leaving at most a partial temp; cleanup removes it
    (false, { fs with temp := none }, [.unlinkTempFile])
  | some .renameFail =>
    -- temp written in full, rename threw; cleanup unlinks the temp
    (false, { fs with temp := none }, [.writeTempFile, .unlinkTempFile])
  | none =>
    (true, { fs with temp := none, output := some (.batch b) },
      [.writeTempFile, .renameTempFile])

/-! ### Job runner -/

/-- In-flight state of the `for (const thread of remainingThreads)` loop. -/
structure LoopState where
  articles : List ArticleAnalysis
  totalAnalyzedPosts : Nat
  totalAntisemiticPercentage : JSNum
  fs : FS
  evs : List Ev
  deriving Repr

/-- The per-thread loop of `generateArticles`: analyze, append, accumulate
the two running totals, checkpoint (best-effort); a thrown `analyzeThread`
is caught, logged and skipped.  The `onProgress` callback has no observable
effect on the model. -/
def runThreads (pct : ℚ) (env : Env) (fenv : FailEnv) (st : LoopState) :
    List Thread → LoopState
  | [] => st
  | t :: ts =>
    match analyzeThread pct env t with
    | .error _ => runThreads pct env fenv st ts
    | .ok a =>
      let articles := st.articles ++ [a]
      let st' : LoopState :=
        { articles := articles
          totalAnalyzedPosts := st.totalAnalyzedPosts + a.metadata.analyzedPosts
          totalAntisemiticPercentage :=
            if 0 < a.antisemiticStats.analyzedComments then
              jsAdd st.totalAntisemiticPercentage a.antisemiticStats.percentage
            else st.totalAntisemiticPercentage
          fs := saveProgress fenv.saveProgressFails articles st.fs
          evs := st.evs ++ [.saveCkpt articles] }
      runThreads pct env fenv st' ts

/-- The threads of a run that the checkpoint does not already cover
(`remainingThreads` in `generateArticles`). -/
def remainingThreadsOf (threads : List Thread) (fs0 : FS) : List Thread :=
  let existingArticles := loadProgress fs0.progress
  let completedThreadIds := existingArticles.map ArticleAnalysis.threadId
  threads.filter (fun t => !(completedThreadIds.contains t.no))

/-- The loop state after the per-thread loop of `generateArticles` (initial
accumulators are seeded from the checkpointed articles). -/
def runState (pct : ℚ) (env : Env) (fenv : FailEnv) (threads : List Thread)
    (fs0 : FS) : LoopState :=
  let existingArticles := loadProgress fs0.progress
  let initState : LoopState :=
    { articles := existingArticles
      totalAnalyzedPosts :=
        existingArticles.foldl (fun sum a => sum + a.metadata.analyzedPosts) 0
      totalAntisemiticPercentage :=
        existingArticles.foldl
          (fun sum a =>
            if 0 < a.antisemiticStats.analyzedComments then
              jsAdd sum a.antisemiticStats.percentage
            else sum)
          (JSNum.num 0)
      fs := fs0
      evs := [] }
  runThreads pct env fenv initState (remainingThreadsOf threads fs0)

/-- The batch `generateArticles` assembles after the loop. -/
def builtBatch (pct : ℚ) (env : Env) (fenv : FailEnv) (threads : List Thread)
    (fs0 : FS) : ArticleBatch :=
  let st := runState pct env fenv threads fs0
  let threadsWithAnalysis :=
    (st.articles.filter (fun a => 0 < a.antisemiticStats.analyzedComments)).length
  let averagePercentage :=
    if 0 < threadsWithAnalysis then
      jsDivByNat st.totalAntisemiticPercentage threadsWithAnalysis
    else JSNum.num 0
  { articles := st.articles
    batchStats :=
      { totalThreads := st.articles.length
        totalAnalyzedPosts := st.totalAnalyzedPosts
        averageAntisemiticPercentage := averagePercentage
        generatedAt := env.now } }

/-- `generateArticles`: the public entry point.  Loads the checkpoint,
skips already-completed thread ids, runs the per-thread loop, computes the
batch statistics, deletes the checkpoint (best-effort) — note this happens
BEFORE the output commit — and commits the output (whose failure
propagates).  Returns the JS outcome (result or thrown), the final
filesystem, and the event trace. -/
def generateArticles (pct : ℚ) (env : Env) (fenv : FailEnv) (threads : List Thread)
    (fs0 : FS) : Except Unit ArticleBatch × FS × List Ev :=
  let st := runState pct env fenv threads fs0
  -- clean up progress file (best-effort), then commit the output
  let fs1 := if fenv.deleteProgressFails then st.fs else { st.fs with progress := .absent }
  let batch := builtBatch pct env fenv threads fs0
  match saveOutput fenv.outputFail batch fs1 with
  | (true, fs2, outEvs) =>
    (.ok batch, fs2, Ev.loadCkpt :: (st.evs ++ Ev.deleteCkpt :: outEvs))
  | (false, fs2, outEvs) =>
    (.error (), fs2, Ev.loadCkpt :: (st.evs ++ Ev.deleteCkpt :: outEvs))

end PolAi

namespace PolAi

/-! ### Characterizations of the observable event trace (used in theorem
statements; independent of the loop implementation) -/

/-- The checkpoint writes the per-thread loop performs: one `saveCkpt` per
successfully analyzed thread, carrying the article list accumulated so
far. -/
def ckptWrites (pct : ℚ) (env : Env) (acc : List ArticleAnalysis) :
    List Thread → List Ev
  | [] => []
  | t :: ts =>
    match analyzeThread pct env t with
    | .error _ => ckptWrites pct env acc ts
    | .ok a => .saveCkpt (acc ++ [a]) :: ckptWrites pct env (acc ++ [a]) ts

/-- The events `saveOutput` emits, as a function of the injected failure and
whether a temp file existed beforehand. -/
def outputEvs (fail : Option SaveFail) (tempExists : Bool) : List Ev :=
  match fail with
  | some .mkdirFail => if tempExists then [.unlinkTempFile] else []
  | some .writeFail => [.unlinkTempFile]
  | some .renameFail => [.writeTempFile, .unlinkTempFile]
  | none => [.writeTempFile, .renameTempFile]

end PolAi

namespace PolAi

/-! ### Concrete fixtures used by witnesses and counterexamples -/

/-- A one-post thread with a non-empty body. -/
def sampleThread : Thread :=
  { no := 77, posts := [{ no := 0, com := some ['h', 'i'] }] }

/-- A deterministic stub environment: identity sampling permutation, a
well-formed summary response, and the classification response `1/1`. -/
def sampleEnv : Env :=
  { samplePerm := fun t => t.posts
    articleChat := fun _ => some "HEADLINE: T\nARTICLE: A".toList
    classifyChat := fun _ _ => some "1/1".toList
    now := 5 }

/-- The record `analyzeThread` produces for `sampleThread` under
`sampleEnv` with a 30% sampling percentage. -/
def sampleRecord : ArticleAnalysis :=
  { threadId := 77, headline := ['T'], article := ['A']
    antisemiticStats :=
      { analyzedComments := 1, antisemiticComments := 1, percentage := .num 100 }
    metadata := { totalPosts := 1, analyzedPosts := 1, generatedAt := 5 } }

/-- The batch a run on `[sampleThread]` with no usable checkpoint commits. -/
def sampleBatch : ArticleBatch :=
  { articles := [sampleRecord]
    batchStats :=
      { totalThreads := 1, totalAnalyzedPosts := 1
        averageAntisemiticPercentage := .num 100, generatedAt := 5 } }

/-- An environment whose classification calls always throw. -/
def failingClassifyEnv : Env :=
  { samplePerm := fun t => t.posts
    articleChat := fun _ => some "HEADLINE: T\nARTICLE: A".toList
    classifyChat := fun _ _ => none
    now := 5 }

/-- A single-post thread. -/
def onePostThread : Thread := { no := 2, posts := [{ no := 0, com := some ['x'] }] }

/-- The record produced for `onePostThread` when every classification call
throws: nothing is analyzed and the percentage is the JS `NaN`. -/
def nanRecord : ArticleAnalysis :=
  { threadId := 2, headline := ['T'], article := ['A']
    antisemiticStats :=
      { analyzedComments := 0, antisemiticComments := 0, percentage := .nan }
    metadata := { totalPosts := 1, analyzedPosts := 1, generatedAt := 5 } }

/-- No failure injection. -/
def noFail : FailEnv := { saveProgressFails := false, outputFail := none, deleteProgressFails := false }

/-- Two distinct threads sharing the same identifier `5`. -/
def dupThreadA : Thread := { no := 5, posts := [{ no := 0, com := some ['x'] }] }

/-- See `dupThreadA`. -/
def dupThreadB : Thread := { no := 5, posts := [{ no := 1, com := some ['y'] }] }

/-- A deterministic stub environment distinguishing the two duplicate-id
threads by their content; classification calls always throw. -/
def dupEnv : Env :=
  { samplePerm := fun t => t.posts
    articleChat := fun t =>
      if t = dupThreadA then some "HEADLINE: A".toList else some "HEADLINE: B".toList
    classifyChat := fun _ _ => none
    now := 0 }

/-- The record of `dupThreadA` under `dupEnv`. -/
def recA : ArticleAnalysis :=
  { threadId := 5, headline := ['A'], article := "No content available".toList
    antisemiticStats :=
      { analyzedComments := 0, antisemiticComments := 0, percentage := .nan }
    metadata := { totalPosts := 1, analyzedPosts := 1, generatedAt := 0 } }

/-- The record of `dupThreadB` under `dupEnv`. -/
def recB : ArticleAnalysis :=
  { threadId := 5, headline := ['B'], article := "No content available".toList
    antisemiticStats :=
      { analyzedComments := 0, antisemiticComments := 0, percentage := .nan }
    metadata := { totalPosts := 1, analyzedPosts := 1, generatedAt := 0 } }

/-- The batch of a full run on `[dupThreadA, dupThreadB]` under `dupEnv`. -/
def dupFullBatch : ArticleBatch :=
  { articles := [recA, recB]
    batchStats :=
      { totalThreads := 2, totalAnalyzedPosts := 2
        averageAntisemiticPercentage := .num 0, generatedAt := 0 } }

/-- The batch of a resumed run on `[dupThreadA, dupThreadB]` under `dupEnv`
with checkpoint `[recA]`: both threads carry id 5, so both are skipped. -/
def dupResumedBatch : ArticleBatch :=
  { articles := [recA]
    batchStats :=
      { totalThreads := 1, totalAnalyzedPosts := 1
        averageAntisemiticPercentage := .num 0, generatedAt := 0 } }

end PolAi

namespace PolAi

/-! ### Sub-batcher lemmas -/

theorem chunkPostsGo_congr :
    ∀ (f₁ f₂ : Nat) (l : List Str), l.length ≤ f₁ → l.length ≤ f₂ →
      chunkPostsGo f₁ l = chunkPostsGo f₂ l := by
  intro f₁
  induction f₁ with
  | zero =>
    intro f₂ l h₁ _
    rw [List.eq_nil_of_length_eq_zero (Nat.le_zero.mp h₁)]
    cases f₂ <;> rfl
  | succ f ih =>
    intro f₂ l h₁ h₂
    cases l with
    | nil => cases f₂ <;> rfl
    | cons p ps =>
      cases f₂ with
      | zero => simp at h₂
      | succ f₂' =>
        simp only [chunkPostsGo]
        rw [ih f₂' ((p :: ps).drop ANTISEMITIC_BATCH_SIZE)
          (by simp [ANTISEMITIC_BATCH_SIZE] at h₁ ⊢; omega)
          (by simp [ANTISEMITIC_BATCH_SIZE] at h₂ ⊢; omega)]

theorem chunkPosts_cons (p : Str) (ps : List Str) :
    chunkPosts (p :: ps) =
      (p :: ps).take ANTISEMITIC_BATCH_SIZE ::
        chunkPosts ((p :: ps).drop ANTISEMITIC_BATCH_SIZE) := by
  show chunkPostsGo (ps.length + 1) (p :: ps) = _
  simp only [chunkPostsGo]
  rw [chunkPostsGo_congr ps.length ((p :: ps).drop ANTISEMITIC_BATCH_SIZE).length
    ((p :: ps).drop ANTISEMITIC_BATCH_SIZE)
    (by simp [ANTISEMITIC_BATCH_SIZE]) le_rfl]
  rfl

/-- Induction along the chunking loop. -/
theorem chunkPosts_induction (motive : List Str → Prop) (h0 : motive [])
    (h1 : ∀ p ps, motive ((p :: ps).drop ANTISEMITIC_BATCH_SIZE) → motive (p :: ps))
    (l : List Str) : motive l := by
  have key : ∀ (n : Nat) (l : List Str), l.length ≤ n → motive l := by
    intro n
    induction n with
    | zero =>
      intro l h
      rw [List.eq_nil_of_length_eq_zero (Nat.le_zero.mp h)]
      exact h0
    | succ n ih =>
      intro l h
      cases l with
      | nil => exact h0
      | cons p ps =>
        exact h1 p ps (ih _ (by simp [ANTISEMITIC_BATCH_SIZE] at h ⊢; omega))
  exact key l.length l le_rfl

theorem chunkPosts_flatten (l : List Str) : (chunkPosts l).flatten = l := by
  induction l using chunkPosts_induction with
  | h0 => rfl
  | h1 p ps ih =>
    rw [chunkPosts_cons]
    simp only [List.flatten_cons, ih, List.take_append_drop]

theorem chunkPosts_length_eq (l : List Str) :
    (chunkPosts l).length = (l.length + (ANTISEMITIC_BATCH_SIZE - 1)) / ANTISEMITIC_BATCH_SIZE := by
  induction l using chunkPosts_induction with
  | h0 => simp [chunkPosts, chunkPostsGo, ANTISEMITIC_BATCH_SIZE]
  | h1 p ps ih =>
    rw [chunkPosts_cons]
    rw [List.length_cons, ih, List.length_drop]
    simp only [List.length_cons, ANTISEMITIC_BATCH_SIZE]
    omega

theorem chunkPosts_size_le (l : List Str) :
    ∀ c ∈ chunkPosts l, c.length ≤ ANTISEMITIC_BATCH_SIZE := by
  induction l using chunkPosts_induction with
  | h0 => simp [chunkPosts, chunkPostsGo]
  | h1 p ps ih =>
    rw [chunkPosts_cons]
    intro c hc
    rw [List.mem_cons] at hc
    cases hc with
    | inl h => subst h; exact List.length_take_le _ _
    | inr h => exact ih c h

theorem ite_ne_then_else (a b : Nat) : (if a ≠ b then b else a) = b := by
  by_cases h : a = b <;> simp [h]

theorem analyzeChunksGo_congr (oracle : Nat → Option Str) :
    ∀ (f₁ f₂ : Nat) (l : List Str) (idx : Nat), l.length ≤ f₁ → l.length ≤ f₂ →
      analyzeChunksGo oracle f₁ idx l = analyzeChunksGo oracle f₂ idx l := by
  intro f₁
  induction f₁ with
  | zero =>
    intro f₂ l idx h₁ _
    rw [List.eq_nil_of_length_eq_zero (Nat.le_zero.mp h₁)]
    cases f₂ <;> rfl
  | succ f ih =>
    intro f₂ l idx h₁ h₂
    cases l with
    | nil => cases f₂ <;> rfl
    | cons p ps =>
      cases f₂ with
      | zero => simp at h₂
      | succ f₂' =>
        simp only [analyzeChunksGo]
        rw [ih f₂' ((p :: ps).drop ANTISEMITIC_BATCH_SIZE) (idx + 1)
          (by simp [ANTISEMITIC_BATCH_SIZE] at h₁ ⊢; omega)
          (by simp [ANTISEMITIC_BATCH_SIZE] at h₂ ⊢; omega)]

theorem analyzeChunksGo_snd (oracle : Nat → Option Str) :
    ∀ (n : Nat) (l : List Str) (idx : Nat), l.length ≤ n →
      (analyzeChunksGo oracle n idx l).2 =
        (((chunkPosts l).enumFrom idx).map
          (fun p => if (oracle p.1).isSome then p.2.length else 0)).sum := by
  intro n
  induction n with
  | zero =>
    intro l idx h
    rw [List.eq_nil_of_length_eq_zero (Nat.le_zero.mp h)]
    rfl
  | succ n ih =>
    intro l idx h
    cases l with
    | nil => rfl
    | cons p ps =>
      rw [chunkPosts_cons, List.enumFrom_cons, List.map_cons, List.sum_cons,
        ← ih ((p :: ps).drop ANTISEMITIC_BATCH_SIZE) (idx + 1)
          (by simp [ANTISEMITIC_BATCH_SIZE] at h ⊢; omega)]
      simp only [analyzeChunksGo]
      cases h' : oracle idx with
      | none => simp only [h', Option.isSome_none, Bool.false_eq_true, if_false, Nat.zero_add]
      | some r => simp only [h', Option.isSome_some, if_true, ite_ne_then_else]

theorem analyzeChunksGo_fst (oracle : Nat → Option Str) :
    ∀ (n : Nat) (l : List Str) (idx : Nat), l.length ≤ n →
      (analyzeChunksGo oracle n idx l).1 =
        (((chunkPosts l).enumFrom idx).map
          (fun p => match oracle p.1 with
            | none => 0
            | some r => (parseAntisemiticResponse r).1)).sum := by
  intro n
  induction n with
  | zero =>
    intro l idx h
    rw [List.eq_nil_of_length_eq_zero (Nat.le_zero.mp h)]
    rfl
  | succ n ih =>
    intro l idx h
    cases l with
    | nil => rfl
    | cons p ps =>
      rw [chunkPosts_cons, List.enumFrom_cons, List.map_cons, List.sum_cons,
        ← ih ((p :: ps).drop ANTISEMITIC_BATCH_SIZE) (idx + 1)
          (by simp [ANTISEMITIC_BATCH_SIZE] at h ⊢; omega)]
      simp only [analyzeChunksGo]
      cases h' : oracle idx with
      | none => simp only [h', Nat.zero_add]
      | some r => simp only [h']

theorem analyzeAntisemiticContent_snd (oracle : Nat → Option Str) (posts : List Str) :
    (analyzeAntisemiticContent oracle posts).2 =
      (((chunkPosts posts).enumFrom 0).map
        (fun p => if (oracle p.1).isSome then p.2.length else 0)).sum :=
  analyzeChunksGo_snd oracle posts.length posts 0 le_rfl

theorem analyzeAntisemiticContent_fst (oracle : Nat → Option Str) (posts : List Str) :
    (analyzeAntisemiticContent oracle posts).1 =
      (((chunkPosts posts).enumFrom 0).map
        (fun p => match oracle p.1 with
          | none => 0
          | some r => (parseAntisemiticResponse r).1)).sum :=
  analyzeChunksGo_fst oracle posts.length posts 0 le_rfl

theorem sum_chunk_sizes (posts : List Str) (k : Nat) :
    (((chunkPosts posts).enumFrom k).map (fun p => p.2.length)).sum = posts.length := by
  have h1 : ((chunkPosts posts).enumFrom k).map (fun p : Nat × List Str => p.2.length)
      = ((chunkPosts posts).enumFrom k).map (List.length ∘ Prod.snd) := rfl
  rw [h1, ← List.map_map, List.enumFrom_map_snd, ← List.length_flatten, chunkPosts_flatten]

end PolAi

namespace PolAi

/-- C3: for a thread whose filtered post-text list has `N` elements and
chunk size `B = 20`, the sub-batcher partitions the list sequentially into
`ceil(N/B)` chunks of size at most `B` (their concatenation is the input),
issues exactly one completion request per chunk (the result depends on the
oracle only at the chunk indices, one lookup each), and whenever no chunk's
completion call fails the aggregate analyzed count equals `N`. -/
theorem c3_subbatcher (posts : List Str) (oracle : Nat → Option Str) :
    (chunkPosts posts).length = posts.length ⌈/⌉ ANTISEMITIC_BATCH_SIZE ∧
    (∀ c ∈ chunkPosts posts, c.length ≤ ANTISEMITIC_BATCH_SIZE) ∧
    (chunkPosts posts).flatten = posts ∧
    (∀ oracle' : Nat → Option Str,
      (∀ i, i < (chunkPosts posts).length → oracle i = oracle' i) →
      analyzeAntisemiticContent oracle posts = analyzeAntisemiticContent oracle' posts) ∧
    ((∀ i, i < (chunkPosts posts).length → (oracle i).isSome) →
      (analyzeAntisemiticContent oracle posts).2 = posts.length) := by
  refine ⟨?_, chunkPosts_size_le posts, chunkPosts_flatten posts, ?_, ?_⟩
  · rw [chunkPosts_length_eq, Nat.ceilDiv_eq_add_pred_div]
    simp only [ANTISEMITIC_BATCH_SIZE]
    omega
  · intro oracle' hagree
    have hmem : ∀ p ∈ (chunkPosts posts).enumFrom 0, p.1 < (chunkPosts posts).length := by
      intro p hp
      obtain ⟨_, h2, _⟩ := List.mem_enumFrom (by exact hp)
      omega
    apply Prod.ext
    · rw [analyzeAntisemiticContent_fst, analyzeAntisemiticContent_fst]
      exact congrArg _ (List.map_congr_left (fun p hp => by rw [hagree p.1 (hmem p hp)]))
    · rw [analyzeAntisemiticContent_snd, analyzeAntisemiticContent_snd]
      exact congrArg _ (List.map_congr_left (fun p hp => by rw [hagree p.1 (hmem p hp)]))
  · intro hok
    rw [analyzeAntisemiticContent_snd]
    rw [List.map_congr_left (g := fun p : Nat × List Str => p.2.length) (fun p hp => by
      obtain ⟨_, h2, _⟩ := List.mem_enumFrom (by exact hp)
      simp [hok p.1 (by omega)])]
    exact sum_chunk_sizes posts 0

/-- C4: per-chunk error policy of the sub-batcher.  The result is the
chunkwise sum in which a chunk whose completion call throws contributes
`(0, 0)` — only that chunk is skipped and processing continues, never
aborting the thread — and a successful chunk contributes its self-reported
flagged count together with the chunk's ACTUAL size: on a count mismatch
the ground-truth size replaces the model's self-report (the discrepancy is
only logged as a warning, never treated as an error). -/
theorem c4_chunk_isolation (oracle : Nat → Option Str) (posts : List Str) :
    analyzeAntisemiticContent oracle posts =
      ((((chunkPosts posts).enumFrom 0).map
          (fun p => match oracle p.1 with
            | none => 0
            | some r => (parseAntisemiticResponse r).1)).sum,
       (((chunkPosts posts).enumFrom 0).map
          (fun p => match oracle p.1 with
            | none => 0
            | some _ => p.2.length)).sum) := by
  apply Prod.ext
  · rw [analyzeAntisemiticContent_fst]
  · rw [analyzeAntisemiticContent_snd]
    exact congrArg _ (List.map_congr_left (fun p _ => by cases oracle p.1 <;> simp))

/-- C10: for every post list and per-chunk outcome sequence, the aggregate
analyzed count is the sum of the actual sizes of the successful chunks (the
self-report is used only when it equals the actual size) and hence at most
the number of input texts; the aggregate flagged count is the unvalidated
sum of the model-reported flagged counts over successful chunks, so it is
NOT constrained to be at most the analyzed count — a concrete run on one
post whose chunk reports `5/1` returns `(5, 1)`. -/
theorem c10_aggregate_counts :
    (∀ (oracle : Nat → Option Str) (posts : List Str),
      (analyzeAntisemiticContent oracle posts).2 =
        (((chunkPosts posts).enumFrom 0).map
          (fun p => if (oracle p.1).isSome then p.2.length else 0)).sum ∧
      (analyzeAntisemiticContent oracle posts).2 ≤ posts.length ∧
      (analyzeAntisemiticContent oracle posts).1 =
        (((chunkPosts posts).enumFrom 0).map
          (fun p => match oracle p.1 with
            | none => 0
            | some r => (parseAntisemiticResponse r).1)).sum) ∧
    analyzeAntisemiticContent (fun _ => some "5/1".toList) ["a".toList] = (5, 1) ∧
    ¬ (∀ (oracle : Nat → Option Str) (posts : List Str),
        (analyzeAntisemiticContent oracle posts).1 ≤
          (analyzeAntisemiticContent oracle posts).2) := by
  refine ⟨fun oracle posts =>
    ⟨analyzeAntisemiticContent_snd oracle posts, ?_, analyzeAntisemiticContent_fst oracle posts⟩,
    ?_, ?_⟩
  · rw [analyzeAntisemiticContent_snd]
    calc (((chunkPosts posts).enumFrom 0).map
          (fun p => if (oracle p.1).isSome then p.2.length else 0)).sum
        ≤ (((chunkPosts posts).enumFrom 0).map (fun p : Nat × List Str => p.2.length)).sum := by
          apply List.sum_le_sum
          intro p _
          by_cases h : (oracle p.1).isSome <;> simp [h]
      _ = posts.length := sum_chunk_sizes posts 0
  · decide
  · intro hall
    have h51 := hall (fun _ => some "5/1".toList) ["a".toList]
    rw [show analyzeAntisemiticContent (fun _ => some "5/1".toList) ["a".toList] = (5, 1) from by
      decide] at h51
    simp at h51

end PolAi


namespace PolAi

/-! ### Parser correspondence lemmas -/

theorem findSlashMatch_cons (c : Char) (rest : Str) :
    findSlashMatch (c :: rest) =
      if isSlashAt (c :: rest) then some (extractSlash (c :: rest))
      else findSlashMatch rest := by
  rw [findSlashMatch]
  simp only [isSlashAt, extractSlash]
  by_cases hd1 : (c :: rest).takeWhile Char.isDigit = []
  · simp [hd1]
  · simp only [hd1, if_false, ne_eq, not_false_eq_true, Bool.true_and]
    cases hdrop : (c :: rest).drop ((c :: rest).takeWhile Char.isDigit).length with
    | nil => simp [hdrop]
    | cons c2 r2 =>
      by_cases hc2 : c2 = '/'
      · subst hc2
        by_cases hd2 : r2.takeWhile Char.isDigit = []
        · simp [hdrop, hd2]
        · simp [hdrop, hd2]
      · split
        · rename_i heq
          rw [List.cons.injEq] at heq
          exact absurd heq.1 hc2
        · rw [if_neg]
          simp

theorem findSlashMatch_eq_find (s : Str) :
    findSlashMatch s = (s.tails.find? isSlashAt).map extractSlash := by
  induction s with
  | nil => rfl
  | cons c rest ih =>
    rw [List.tails_cons, List.find?_cons, findSlashMatch_cons]
    cases hA : isSlashAt (c :: rest) with
    | true => simp
    | false => simp [ih]

theorem findLabelCapture_eq_none (label : Str) (s : Str)
    (h : s.tails.any (startsWithCI label) = false) :
    findLabelCapture label s = none := by
  induction s with
  | nil => rfl
  | cons c rest ih =>
    rw [List.tails_cons, List.any_cons, Bool.or_eq_false_iff] at h
    rw [findLabelCapture, if_neg (by simp [h.1])]
    exact ih h.2

/-- C7: both response parsers are total functions of the response text
(modelled as total Lean functions — nothing throws).  A response lacking a
case-insensitive `HEADLINE:` (resp. `ARTICLE:`) occurrence yields the
sentinel `"Untitled Thread"` (resp. `"No content available"`); a response
with no `X/Y` digit pattern yields `(0, 1)`; otherwise the classification
parser returns the integer pair of the first `X/Y` pattern found. -/
theorem c7_parser_robustness :
    (∀ s : Str, s.tails.any (startsWithCI "HEADLINE:".toList) = false →
      (parseArticleResponse s).1 = "Untitled Thread".toList) ∧
    (∀ s : Str, s.tails.any (startsWithCI "ARTICLE:".toList) = false →
      (parseArticleResponse s).2 = "No content available".toList) ∧
    (∀ s : Str, s.tails.any isSlashAt = false → parseAntisemiticResponse s = (0, 1)) ∧
    (∀ (s t : Str), s.tails.find? isSlashAt = some t →
      parseAntisemiticResponse s =
        (digitsToNat (extractSlash t).1, digitsToNat (extractSlash t).2)) := by
  refine ⟨?_, ?_, ?_, ?_⟩
  · intro s h
    simp only [parseArticleResponse, findLabelCapture_eq_none _ s h]
    decide
  · intro s h
    simp only [parseArticleResponse, findLabelCapture_eq_none _ s h]
    decide
  · intro s h
    have hnone : s.tails.find? isSlashAt = none := List.find?_eq_none.mpr (by
      intro t ht
      have := List.any_eq_false.mp (by exact h) t ht
      simpa using this)
    rw [parseAntisemiticResponse, findSlashMatch_eq_find, hnone]
    rfl
  · intro s t h
    rw [parseAntisemiticResponse, findSlashMatch_eq_find, h]
    rfl

/-- C7 witness -/
theorem c7_parser_robustness_witness :
    (parseArticleResponse "no labels at all".toList).1 = "Untitled Thread".toList ∧
    (parseArticleResponse "no labels at all".toList).2 = "No content available".toList ∧
    parseAntisemiticResponse "all clear".toList = (0, 1) ∧
    parseAntisemiticResponse "score 12/34 then 5/6".toList =
      (digitsToNat (extractSlash "12/34 then 5/6".toList).1,
       digitsToNat (extractSlash "12/34 then 5/6".toList).2) :=
  ⟨c7_parser_robustness.1 _ (by decide),
   c7_parser_robustness.2.1 _ (by decide),
   c7_parser_robustness.2.2.1 _ (by decide),
   c7_parser_robustness.2.2.2 _ _ (by decide)⟩

/-! ### Sampler -/

/-- C9: for a thread with `P` posts and configured percentage
`pct ∈ (0,100]`, the sampler returns exactly `ceil(P * pct / 100)` distinct
posts drawn from the thread without replacement (a sub-permutation of its
posts), returns `[]` when `P = 0`, and for `pct = 100` returns all `P`
posts exactly once.  `randomSample` itself is modelled from the spec (its
source is not in the tree); the randomness is an arbitrary permutation of
the posts. -/
theorem c9_sampler (pct : ℚ) (thread : Thread) (perm : List Post)
    (hperm : perm.Perm thread.posts) (h0 : 0 < pct) (h100 : pct ≤ 100) :
    (getPostsToAnalyze pct perm thread).length =
      (⌈(thread.posts.length * pct) / 100⌉).toNat ∧
    (getPostsToAnalyze pct perm thread).Subperm thread.posts ∧
    (thread.posts.length = 0 → getPostsToAnalyze pct perm thread = []) ∧
    (pct = 100 → (getPostsToAnalyze pct perm thread).Perm thread.posts) := by
  by_cases hP : thread.posts.length = 0
  · rw [getPostsToAnalyze, if_pos hP]
    refine ⟨?_, List.nil_subperm, fun _ => rfl, ?_⟩
    · rw [hP]
      simp
    · intro h
      rw [List.eq_nil_of_length_eq_zero hP]
  · have hk : (⌈((thread.posts.length : ℚ) * pct) / 100⌉).toNat ≤ thread.posts.length := by
      have hceil : ⌈((thread.posts.length : ℚ) * pct) / 100⌉ ≤ (thread.posts.length : ℤ) := by
        rw [Int.ceil_le]
        push_cast
        rw [div_le_iff₀ (by norm_num)]
        exact mul_le_mul_of_nonneg_left h100 (by positivity)
      omega
    rw [getPostsToAnalyze, if_neg hP, randomSample]
    have hlen : perm.length = thread.posts.length := hperm.length_eq
    refine ⟨?_, ?_, fun h => absurd h hP, ?_⟩
    · rw [List.length_take, hlen]
      omega
    · exact (List.take_sublist _ _).subperm.trans hperm.subperm
    · intro hpct
      subst hpct
      have hceil100 : (⌈((thread.posts.length : ℚ) * 100) / 100⌉).toNat = thread.posts.length := by
        rw [mul_div_assoc]
        norm_num
      rw [hceil100, ← hlen, List.take_length]
      exact hperm

/-! ### Percentage lemmas -/

theorem chunkPosts_pos (l : List Str) : ∀ c ∈ chunkPosts l, 0 < c.length := by
  induction l using chunkPosts_induction with
  | h0 => simp [chunkPosts, chunkPostsGo]
  | h1 p ps ih =>
    rw [chunkPosts_cons]
    intro c hc
    rw [List.mem_cons] at hc
    cases hc with
    | inl h =>
      subst h
      rw [List.length_take]
      simp [ANTISEMITIC_BATCH_SIZE]
    | inr h => exact ih c h

/-- If no post was analyzed then no chunk succeeded, so the flagged total
is 0 as well. -/
theorem flagged_zero_of_analyzed_zero (oracle : Nat → Option Str) (posts : List Str)
    (h : (analyzeAntisemiticContent oracle posts).2 = 0) :
    (analyzeAntisemiticContent oracle posts).1 = 0 := by
  rw [analyzeAntisemiticContent_snd] at h
  rw [analyzeAntisemiticContent_fst]
  apply List.sum_eq_zero
  intro x hx
  rw [List.mem_map] at hx
  obtain ⟨p, hp, hpx⟩ := hx
  have hmem2 : p.2 ∈ List.map Prod.snd ((chunkPosts posts).enumFrom 0) :=
    List.mem_map_of_mem Prod.snd hp
  rw [List.enumFrom_map_snd] at hmem2
  have hsize : 0 < p.2.length := chunkPosts_pos posts p.2 hmem2
  cases horacle : oracle p.1 with
  | none => rw [← hpx]; simp [horacle]
  | some r =>
    exfalso
    have hzero := List.sum_eq_zero_iff.mp h _ (List.mem_map_of_mem _ hp)
    rw [horacle] at hzero
    simp only [Option.isSome_some, if_true] at hzero
    omega

/-- The shape of JS `(flagged / analyzed) * 100` over naturals. -/
theorem percentage_formula (f n : Nat) :
    (0 < n → jsMul100 (jsDivNat f n) = .num (100 * (f : ℚ) / (n : ℚ))) ∧
    (n = 0 → f = 0 → jsMul100 (jsDivNat f n) = .nan) := by
  constructor
  · intro hn
    rw [jsDivNat, if_neg (by omega), jsMul100, JSNum.num.injEq]
    ring
  · intro hn hf
    subst hn hf
    rfl

/-- C5 (amended): every record the thread analyzer produces satisfies
`percentage = 100 * flaggedCount / analyzedCount` when `analyzedCount > 0`;
when `analyzedCount = 0` the unguarded JS `0/0` makes the percentage `NaN`
— not the explicit undefined/zero-by-convention value the claim asks for
(see the counterexample). -/
theorem c5_percentage_invariant (pct : ℚ) (env : Env) (thread : Thread)
    (a : ArticleAnalysis) (h : analyzeThread pct env thread = .ok a) :
    (0 < a.antisemiticStats.analyzedComments →
      a.antisemiticStats.percentage =
        .num (100 * (a.antisemiticStats.antisemiticComments : ℚ) /
          (a.antisemiticStats.analyzedComments : ℚ))) ∧
    (a.antisemiticStats.analyzedComments = 0 →
      a.antisemiticStats.percentage = JSNum.nan) := by
  rw [analyzeThread] at h
  cases hchat : env.articleChat thread with
  | none => rw [hchat] at h; exact absurd h (by simp)
  | some response =>
    rw [hchat] at h
    injection h with h
    subst h
    exact ⟨fun hpos => (percentage_formula _ _).1 hpos,
      fun hzero => (percentage_formula _ _).2 hzero
        (flagged_zero_of_analyzed_zero _ _ hzero)⟩

end PolAi

namespace PolAi

/-- C3 witness -/
theorem c3_subbatcher_witness :
    analyzeAntisemiticContent (fun i => if i < 3 then some "2/20".toList else none)
        (List.replicate 45 "x".toList) =
      analyzeAntisemiticContent (fun _ => some "2/20".toList) (List.replicate 45 "x".toList) ∧
    (analyzeAntisemiticContent (fun _ => some "2/20".toList) (List.replicate 45 "x".toList)).2 = 45 :=
  ⟨(c3_subbatcher _ _).2.2.2.1 _ (by decide),
   (c3_subbatcher _ _).2.2.2.2 (fun _ _ => rfl)⟩

/-- C9 witness -/
theorem c9_sampler_witness :
    (getPostsToAnalyze 30 sampleThread.posts sampleThread).length =
      (⌈(sampleThread.posts.length * (30 : ℚ)) / 100⌉).toNat ∧
    (getPostsToAnalyze 30 sampleThread.posts sampleThread).Subperm sampleThread.posts ∧
    (sampleThread.posts.length = 0 → getPostsToAnalyze 30 sampleThread.posts sampleThread = []) ∧
    ((30 : ℚ) = 100 → (getPostsToAnalyze 30 sampleThread.posts sampleThread).Perm sampleThread.posts) :=
  c9_sampler 30 sampleThread sampleThread.posts (List.Perm.refl _) (by norm_num) (by norm_num)


end PolAi

namespace PolAi

/-! ### Loop characterization lemmas -/

theorem runThreads_articles (pct : ℚ) (env : Env) (fenv : FailEnv) :
    ∀ (ts : List Thread) (st : LoopState),
      (runThreads pct env fenv st ts).articles =
        st.articles ++ ts.filterMap (fun t => (analyzeThread pct env t).toOption) := by
  intro ts
  induction ts with
  | nil => intro st; simp [runThreads]
  | cons t ts ih =>
    intro st
    rw [runThreads]
    cases h : analyzeThread pct env t with
    | error e => rw [ih, List.filterMap_cons]; simp [h, Except.toOption]
    | ok a => rw [ih, List.filterMap_cons]; simp [h, Except.toOption]

theorem runThreads_evs (pct : ℚ) (env : Env) (fenv : FailEnv) :
    ∀ (ts : List Thread) (st : LoopState),
      (runThreads pct env fenv st ts).evs =
        st.evs ++ ckptWrites pct env st.articles ts := by
  intro ts
  induction ts with
  | nil => intro st; simp [runThreads, ckptWrites]
  | cons t ts ih =>
    intro st
    rw [runThreads, ckptWrites]
    cases h : analyzeThread pct env t with
    | error e => rw [ih]
    | ok a => rw [ih]; simp

theorem runThreads_totalPct (pct : ℚ) (env : Env) (fenv : FailEnv) :
    ∀ (ts : List Thread) (st : LoopState),
      (runThreads pct env fenv st ts).totalAntisemiticPercentage =
        (ts.filterMap (fun t => (analyzeThread pct env t).toOption)).foldl
          (fun sum a =>
            if 0 < a.antisemiticStats.analyzedComments then
              jsAdd sum a.antisemiticStats.percentage
            else sum)
          st.totalAntisemiticPercentage := by
  intro ts
  induction ts with
  | nil => intro st; simp [runThreads]
  | cons t ts ih =>
    intro st
    rw [runThreads, List.filterMap_cons]
    cases h : analyzeThread pct env t with
    | error e => rw [ih]; simp [Except.toOption]
    | ok a => rw [ih]; simp [Except.toOption]

theorem runThreads_fs_output (pct : ℚ) (env : Env) (fenv : FailEnv) :
    ∀ (ts : List Thread) (st : LoopState),
      (runThreads pct env fenv st ts).fs.output = st.fs.output ∧
      (runThreads pct env fenv st ts).fs.temp = st.fs.temp := by
  intro ts
  induction ts with
  | nil => intro st; exact ⟨rfl, rfl⟩
  | cons t ts ih =>
    intro st
    rw [runThreads]
    cases h : analyzeThread pct env t with
    | error e => exact ih st
    | ok a =>
      refine ⟨(ih _).1.trans ?_, (ih _).2.trans ?_⟩ <;>
        simp [saveProgress] <;> split <;> rfl

/-! ### saveOutput / generateArticles characterization -/

theorem saveOutput_evs (fail : Option SaveFail) (b : ArticleBatch) (fs : FS) :
    (saveOutput fail b fs).2.2 = outputEvs fail fs.temp.isSome := by
  cases fail with
  | none => rfl
  | some f =>
    cases f with
    | mkdirFail => rw [saveOutput, outputEvs]; split <;> simp_all
    | writeFail => rfl
    | renameFail => rfl

theorem saveOutput_fst (fail : Option SaveFail) (b : ArticleBatch) (fs : FS) :
    (saveOutput fail b fs).1 = (fail = none : Bool) := by
  cases fail with
  | none => rfl
  | some f =>
    cases f with
    | mkdirFail => rw [saveOutput]; split <;> simp
    | writeFail => simp [saveOutput]
    | renameFail => simp [saveOutput]

theorem saveOutput_temp_none (f : SaveFail) (b : ArticleBatch) (fs : FS) :
    (saveOutput (some f) b fs).2.1.temp = none := by
  cases f with
  | mkdirFail =>
    rw [saveOutput]
    split
    · rfl
    · rename_i h
      exact Option.not_isSome_iff_eq_none.mp (by simpa using h)
  | writeFail => rfl
  | renameFail => rfl

theorem saveOutput_output_untouched (f : SaveFail) (b : ArticleBatch) (fs : FS) :
    (saveOutput (some f) b fs).2.1.output = fs.output := by
  cases f with
  | mkdirFail => rw [saveOutput]; split <;> rfl
  | writeFail => rfl
  | renameFail => rfl

theorem match_bool_triple {α : Type} (so : Bool × FS × List Ev) (A B : FS → List Ev → α) :
    (match so with
     | (true, fs2, evs) => A fs2 evs
     | (false, fs2, evs) => B fs2 evs) =
      if so.1 then A so.2.1 so.2.2 else B so.2.1 so.2.2 := by
  rcases so with ⟨b, fs2, evs⟩
  cases b <;> rfl

theorem generateArticles_fst (pct : ℚ) (env : Env) (fenv : FailEnv)
    (threads : List Thread) (fs0 : FS) :
    (generateArticles pct env fenv threads fs0).1 =
      if fenv.outputFail = none then .ok (builtBatch pct env fenv threads fs0)
      else .error () := by
  rw [generateArticles]
  have h := match_bool_triple (α := Except Unit ArticleBatch × FS × List Ev)
    (saveOutput fenv.outputFail (builtBatch pct env fenv threads fs0)
      (if fenv.deleteProgressFails then (runState pct env fenv threads fs0).fs
       else { (runState pct env fenv threads fs0).fs with progress := .absent }))
    (fun fs2 outEvs => (.ok (builtBatch pct env fenv threads fs0), fs2,
      Ev.loadCkpt :: ((runState pct env fenv threads fs0).evs ++ Ev.deleteCkpt :: outEvs)))
    (fun fs2 outEvs => (.error (), fs2,
      Ev.loadCkpt :: ((runState pct env fenv threads fs0).evs ++ Ev.deleteCkpt :: outEvs)))
  rw [h, saveOutput_fst]
  cases hfail : fenv.outputFail with
  | none => rfl
  | some f => rfl

end PolAi

namespace PolAi

theorem generateArticles_fs (pct : ℚ) (env : Env) (fenv : FailEnv)
    (threads : List Thread) (fs0 : FS) :
    (generateArticles pct env fenv threads fs0).2.1 =
      (saveOutput fenv.outputFail (builtBatch pct env fenv threads fs0)
        (if fenv.deleteProgressFails then (runState pct env fenv threads fs0).fs
         else { (runState pct env fenv threads fs0).fs with progress := .absent })).2.1 := by
  rw [generateArticles]
  rw [match_bool_triple (α := Except Unit ArticleBatch × FS × List Ev)]
  split <;> split <;> rfl

theorem fs1_temp (fenv : FailEnv) (st : LoopState) :
    (if fenv.deleteProgressFails then st.fs
     else { st.fs with progress := .absent }).temp = st.fs.temp := by
  split <;> rfl

theorem generateArticles_trace (pct : ℚ) (env : Env) (fenv : FailEnv)
    (threads : List Thread) (fs0 : FS) :
    (generateArticles pct env fenv threads fs0).2.2 =
      Ev.loadCkpt ::
        (ckptWrites pct env (loadProgress fs0.progress) (remainingThreadsOf threads fs0) ++
          Ev.deleteCkpt :: outputEvs fenv.outputFail fs0.temp.isSome) := by
  rw [generateArticles]
  rw [match_bool_triple (α := Except Unit ArticleBatch × FS × List Ev)]
  have hevs : (runState pct env fenv threads fs0).evs =
      ckptWrites pct env (loadProgress fs0.progress) (remainingThreadsOf threads fs0) := by
    rw [runState, runThreads_evs]
    rfl
  have htemp : (if fenv.deleteProgressFails then (runState pct env fenv threads fs0).fs
      else { (runState pct env fenv threads fs0).fs with progress := .absent }).temp = fs0.temp := by
    rw [fs1_temp]
    rw [runState]
    exact (runThreads_fs_output pct env fenv _ _).2
  rw [show (saveOutput fenv.outputFail (builtBatch pct env fenv threads fs0)
      (if fenv.deleteProgressFails then (runState pct env fenv threads fs0).fs
       else { (runState pct env fenv threads fs0).fs with progress := .absent })).2.2 =
      outputEvs fenv.outputFail fs0.temp.isSome from by
    rw [saveOutput_evs, htemp]]
  rw [hevs]
  split <;> split <;> rfl

end PolAi

namespace PolAi

theorem saveOutput_progress (fail : Option SaveFail) (b : ArticleBatch) (fs : FS) :
    (saveOutput fail b fs).2.1.progress = fs.progress := by
  cases fail with
  | none => rfl
  | some f =>
    cases f with
    | mkdirFail => rw [saveOutput]; split <;> rfl
    | writeFail => rfl
    | renameFail => rfl

theorem fs1_output (fenv : FailEnv) (st : LoopState) :
    (if fenv.deleteProgressFails then st.fs
     else { st.fs with progress := .absent }).output = st.fs.output := by
  split <;> rfl

/-- C1: the output commit writes the full artifact to the temporary
location and then atomically renames it over `articles.json` (on success
the events are `writeTempFile` then `renameTempFile` and the output holds
the batch); on any injected failure the commit reports failure, the
temporary artifact is removed, and the prior `articles.json` is untouched;
and a failing commit makes the public entry point `generateArticles`
itself throw, with the same cleanup guarantees. -/
theorem c1_output_commit_atomic :
    (∀ (b : ArticleBatch) (fs : FS),
      saveOutput none b fs =
        (true, { fs with temp := none, output := some (.batch b) },
          [.writeTempFile, .renameTempFile])) ∧
    (∀ (f : SaveFail) (b : ArticleBatch) (fs : FS),
      (saveOutput (some f) b fs).1 = false ∧
      (saveOutput (some f) b fs).2.1.temp = none ∧
      (saveOutput (some f) b fs).2.1.output = fs.output) ∧
    (∀ (pct : ℚ) (env : Env) (fenv : FailEnv) (threads : List Thread) (fs : FS),
      fenv.outputFail ≠ none →
      (generateArticles pct env fenv threads fs).1 = .error () ∧
      (generateArticles pct env fenv threads fs).2.1.temp = none ∧
      (generateArticles pct env fenv threads fs).2.1.output = fs.output) := by
  refine ⟨fun b fs => rfl, ?_, ?_⟩
  · intro f b fs
    refine ⟨?_, saveOutput_temp_none f b fs, saveOutput_output_untouched f b fs⟩
    rw [saveOutput_fst]
    simp
  · intro pct env fenv threads fs hfail
    obtain ⟨f, hf⟩ := Option.ne_none_iff_exists'.mp hfail
    refine ⟨?_, ?_, ?_⟩
    · rw [generateArticles_fst, if_neg (by simp [hf])]
    · rw [generateArticles_fs, hf, saveOutput_temp_none]
    · rw [generateArticles_fs, hf, saveOutput_output_untouched, fs1_output, runState]
      exact (runThreads_fs_output pct env fenv _ _).1

/-- C1 witness -/
theorem c1_output_commit_atomic_witness :
    saveOutput none sampleBatch { progress := .absent, output := some .garbage, temp := none } =
      (true, { progress := .absent, output := some (.batch sampleBatch), temp := none },
        [.writeTempFile, .renameTempFile]) ∧
    (generateArticles 30 sampleEnv
        { saveProgressFails := false, outputFail := some .renameFail, deleteProgressFails := false }
        [] { progress := .absent, output := some .garbage, temp := none }).1 = .error () ∧
    (generateArticles 30 sampleEnv
        { saveProgressFails := false, outputFail := some .renameFail, deleteProgressFails := false }
        [] { progress := .absent, output := some .garbage, temp := none }).2.1.temp = none ∧
    (generateArticles 30 sampleEnv
        { saveProgressFails := false, outputFail := some .renameFail, deleteProgressFails := false }
        [] { progress := .absent, output := some .garbage, temp := none }).2.1.output =
      some .garbage :=
  ⟨c1_output_commit_atomic.1 sampleBatch _,
   (c1_output_commit_atomic.2.2 30 sampleEnv _ [] _ (by simp)).1,
   (c1_output_commit_atomic.2.2 30 sampleEnv _ [] _ (by simp)).2.1,
   (c1_output_commit_atomic.2.2 30 sampleEnv _ [] _ (by simp)).2.2⟩

/-- C8 (amended): the run's event trace is exactly one checkpoint read at
job start, then one checkpoint write per successfully analyzed thread
(carrying the accumulated records), then the checkpoint delete, then the
output-commit events — so the delete happens after the loop and BEFORE the
output commit; when the delete does not fail the checkpoint file is gone
regardless of whether the commit succeeds (the original claim's "never
deleted by an unsuccessful job" is refuted by the counterexample); and
only an output-commit failure — never a delete failure — makes the job
throw. -/
theorem c8_checkpoint_lifecycle (pct : ℚ) (env : Env) (fenv : FailEnv)
    (threads : List Thread) (fs0 : FS) :
    (generateArticles pct env fenv threads fs0).2.2 =
      Ev.loadCkpt ::
        (ckptWrites pct env (loadProgress fs0.progress) (remainingThreadsOf threads fs0) ++
          Ev.deleteCkpt :: outputEvs fenv.outputFail fs0.temp.isSome) ∧
    (fenv.deleteProgressFails = false →
      (generateArticles pct env fenv threads fs0).2.1.progress = .absent) ∧
    (((generateArticles pct env fenv threads fs0).1 = .error ()) ↔ fenv.outputFail ≠ none) := by
  refine ⟨generateArticles_trace pct env fenv threads fs0, ?_, ?_⟩
  · intro hdel
    rw [generateArticles_fs, saveOutput_progress, hdel]
    rfl
  · rw [generateArticles_fst]
    cases hfail : fenv.outputFail with
    | none => simp
    | some f => simp

/-- C8 witness -/
theorem c8_checkpoint_lifecycle_witness :
    (generateArticles 30 sampleEnv noFail []
        { progress := .valid [], output := none, temp := none }).2.1.progress = .absent :=
  (c8_checkpoint_lifecycle 30 sampleEnv noFail []
    { progress := .valid [], output := none, temp := none }).2.1 rfl

/-- C8 counterexample: a job whose output commit fails (and therefore does
not complete successfully — it throws) has nevertheless already deleted the
checkpoint file. -/
theorem c8_checkpoint_counterexample :
    (generateArticles 30 sampleEnv
        { saveProgressFails := false, outputFail := some .renameFail, deleteProgressFails := false }
        [] { progress := .valid [], output := none, temp := none }).1 = .error () ∧
    (generateArticles 30 sampleEnv
        { saveProgressFails := false, outputFail := some .renameFail, deleteProgressFails := false }
        [] { progress := .valid [], output := none, temp := none }).2.1.progress = .absent :=
  ⟨rfl, rfl⟩

end PolAi

namespace PolAi

/-! ### Concrete-run evaluation lemmas -/

/-- With a 30% sampling percentage, a one-post thread whose permutation is
the posts themselves is sampled in full (`ceil(1 * 30 / 100) = 1`). -/
theorem postsToAnalyzeOf_onePost (env : Env) (t : Thread)
    (hlen : t.posts.length = 1) (hperm : env.samplePerm t = t.posts) :
    postsToAnalyzeOf 30 env t = t.posts := by
  rw [postsToAnalyzeOf, getPostsToAnalyze, if_neg (by omega), randomSample, hperm, hlen]
  rw [show ((⌈((1 : Nat) * (30 : ℚ)) / 100⌉).toNat) = 1 from by
    rw [show ⌈((1 : Nat) * (30 : ℚ)) / 100⌉ = 1 from by
      rw [Int.ceil_eq_iff]
      norm_num]
    rfl]
  rw [← hlen, List.take_length]

theorem analyzeThread_sample_eval :
    analyzeThread 30 sampleEnv sampleThread = .ok sampleRecord := by
  have h1 : postsToAnalyzeOf 30 sampleEnv sampleThread = sampleThread.posts :=
    postsToAnalyzeOf_onePost sampleEnv sampleThread rfl rfl
  have h2 : validPostsOf 30 sampleEnv sampleThread = [['h', 'i']] := by
    rw [validPostsOf, h1]
    rfl
  simp only [analyzeThread, h1, h2]
  rw [show sampleEnv.articleChat sampleThread = some "HEADLINE: T\nARTICLE: A".toList from rfl]
  rw [Except.ok.injEq, sampleRecord, ArticleAnalysis.mk.injEq]
  refine ⟨rfl, by decide, by decide, ?_, by decide⟩
  rw [AntisemiticStats.mk.injEq]
  refine ⟨by decide, by decide, ?_⟩
  rw [show analyzeAntisemiticContent (sampleEnv.classifyChat sampleThread) [['h', 'i']] = (1, 1)
    from by decide]
  rw [jsDivNat, if_neg (by omega), jsMul100, JSNum.num.injEq]
  norm_num

theorem analyzeThread_failing_eval :
    analyzeThread 30 failingClassifyEnv onePostThread = .ok nanRecord := by
  have h1 : postsToAnalyzeOf 30 failingClassifyEnv onePostThread = onePostThread.posts :=
    postsToAnalyzeOf_onePost failingClassifyEnv onePostThread rfl rfl
  have h2 : validPostsOf 30 failingClassifyEnv onePostThread = [['x']] := by
    rw [validPostsOf, h1]
    rfl
  simp only [analyzeThread, h1, h2]
  rfl

theorem analyzeThread_dupA_eval : analyzeThread 30 dupEnv dupThreadA = .ok recA := by
  have h1 : postsToAnalyzeOf 30 dupEnv dupThreadA = dupThreadA.posts :=
    postsToAnalyzeOf_onePost dupEnv dupThreadA rfl rfl
  have h2 : validPostsOf 30 dupEnv dupThreadA = [['x']] := by
    rw [validPostsOf, h1]
    rfl
  simp only [analyzeThread, h1, h2]
  rfl

theorem analyzeThread_dupB_eval : analyzeThread 30 dupEnv dupThreadB = .ok recB := by
  have h1 : postsToAnalyzeOf 30 dupEnv dupThreadB = dupThreadB.posts :=
    postsToAnalyzeOf_onePost dupEnv dupThreadB rfl rfl
  have h2 : validPostsOf 30 dupEnv dupThreadB = [['y']] := by
    rw [validPostsOf, h1]
    rfl
  simp only [analyzeThread, h1, h2]
  rfl

/-- C5 counterexample: a thread whose only classification chunk fails
yields a record with `analyzedComments = 0` whose `percentage` is the JS
`NaN` (from `0/0`), not an explicit zero/undefined convention value. -/
theorem c5_percentage_counterexample :
    analyzeThread 30 failingClassifyEnv onePostThread = .ok nanRecord ∧
    nanRecord.antisemiticStats.analyzedComments = 0 ∧
    nanRecord.antisemiticStats.percentage = JSNum.nan ∧
    JSNum.nan ≠ JSNum.num 0 :=
  ⟨analyzeThread_failing_eval, rfl, rfl, by decide⟩

/-- C5 witness -/
theorem c5_percentage_invariant_witness :
    0 < sampleRecord.antisemiticStats.analyzedComments ∧
    sampleRecord.antisemiticStats.percentage =
      .num (100 * (sampleRecord.antisemiticStats.antisemiticComments : ℚ) /
        (sampleRecord.antisemiticStats.analyzedComments : ℚ)) :=
  ⟨by decide,
   (c5_percentage_invariant 30 sampleEnv sampleThread sampleRecord
      analyzeThread_sample_eval).1 (by decide)⟩

end PolAi

namespace PolAi

theorem generateArticles_sample_eval (fs : FS) (hload : loadProgress fs.progress = []) :
    (generateArticles 30 sampleEnv noFail [sampleThread] fs).1 = .ok sampleBatch := by
  rw [generateArticles_fst]
  rw [if_pos (show noFail.outputFail = none from rfl), Except.ok.injEq]
  rw [builtBatch, runState, hload]
  rw [show remainingThreadsOf [sampleThread] fs =
      [sampleThread] from by rw [remainingThreadsOf, hload]; rfl]
  simp only [runThreads, analyzeThread_sample_eval]
  simp only [sampleRecord, sampleBatch]
  norm_num [jsAdd, jsDivByNat, ArticleBatch.mk.injEq, BatchStats.mk.injEq]
  rfl

end PolAi

namespace PolAi

/-! ### Average-percentage lemmas -/

theorem toOption_eq_some {α : Type} (e : Except Unit α) (a : α)
    (h : e.toOption = some a) : e = .ok a := by
  cases e with
  | error x => simp [Except.toOption] at h
  | ok x =>
    simp only [Except.toOption, Option.some.injEq] at h
    rw [h]

theorem foldl_pct_num :
    ∀ (L : List ArticleAnalysis),
      (∀ a ∈ L, 0 < a.antisemiticStats.analyzedComments →
        ∃ q, a.antisemiticStats.percentage = .num q) →
      ∀ q0 : ℚ,
        L.foldl (fun sum a =>
          if 0 < a.antisemiticStats.analyzedComments then
            jsAdd sum a.antisemiticStats.percentage
          else sum) (.num q0) =
        .num (q0 + ((L.filter (fun a => 0 < a.antisemiticStats.analyzedComments)).map
          (fun a => a.antisemiticStats.percentage.toQ)).sum) := by
  intro L
  induction L with
  | nil => intro _ q0; simp
  | cons a L ih =>
    intro hL q0
    rw [List.foldl_cons]
    by_cases hpos : 0 < a.antisemiticStats.analyzedComments
    · obtain ⟨q, hq⟩ := hL a (by simp) hpos
      rw [if_pos hpos, hq]
      rw [show jsAdd (JSNum.num q0) (JSNum.num q) = JSNum.num (q0 + q) from rfl]
      rw [ih (fun b hb => hL b (by simp [hb])) (q0 + q)]
      rw [List.filter_cons_of_pos (by simp [hpos]), List.map_cons, List.sum_cons]
      rw [JSNum.num.injEq, hq]
      show q0 + q + _ = q0 + (JSNum.toQ (JSNum.num q) + _)
      rw [show JSNum.toQ (JSNum.num q) = q from rfl]
      ring
    · rw [if_neg hpos, ih (fun b hb => hL b (by simp [hb])) q0]
      rw [List.filter_cons_of_neg (by simp [hpos])]

end PolAi

namespace PolAi

theorem jsDivByNat_num (a : ℚ) (n : Nat) :
    jsDivByNat (.num a) n =
      if n = 0 then (if a = 0 then .nan else .posInf) else .num (a / (n : ℚ)) := rfl

/-- The percentage field of every record `analyzeThread` returns. -/
theorem analyzeThread_percentage_spec (pct : ℚ) (env : Env) (thread : Thread)
    (a : ArticleAnalysis) (h : analyzeThread pct env thread = .ok a) :
    (0 < a.antisemiticStats.analyzedComments →
      a.antisemiticStats.percentage =
        .num (100 * (a.antisemiticStats.antisemiticComments : ℚ) /
          (a.antisemiticStats.analyzedComments : ℚ))) ∧
    (a.antisemiticStats.analyzedComments = 0 →
      a.antisemiticStats.percentage = JSNum.nan) := by
  rw [analyzeThread] at h
  cases hchat : env.articleChat thread with
  | none => rw [hchat] at h; exact absurd h (by simp)
  | some response =>
    rw [hchat] at h
    injection h with h
    subst h
    exact ⟨fun hpos => (percentage_formula _ _).1 hpos,
      fun hzero => (percentage_formula _ _).2 hzero
        (flagged_zero_of_analyzed_zero _ _ hzero)⟩

/-- C6: for every completed job (one that returns a batch), the batch's
`averageAntisemiticPercentage` is the arithmetic mean of the per-record
`percentage` taken only over records whose `analyzedComments > 0` —
records with zero analyzable content are excluded, not counted as 0% — and
it is 0 when no record qualifies.  Hypothesis: checkpointed records with
`analyzedComments > 0` carry finite percentages, which holds for every
checkpoint the pipeline itself writes. -/
theorem c6_average_flagged (pct : ℚ) (env : Env) (fenv : FailEnv)
    (threads : List Thread) (fs : FS) (batch : ArticleBatch)
    (hrun : (generateArticles pct env fenv threads fs).1 = .ok batch)
    (hck : ∀ r ∈ loadProgress fs.progress,
      0 < r.antisemiticStats.analyzedComments →
      ∃ q, r.antisemiticStats.percentage = .num q) :
    ((batch.articles.filter (fun a => 0 < a.antisemiticStats.analyzedComments)).length = 0 →
      batch.batchStats.averageAntisemiticPercentage = .num 0) ∧
    (0 < (batch.articles.filter (fun a => 0 < a.antisemiticStats.analyzedComments)).length →
      batch.batchStats.averageAntisemiticPercentage =
        .num (((batch.articles.filter
            (fun a => 0 < a.antisemiticStats.analyzedComments)).map
            (fun a => a.antisemiticStats.percentage.toQ)).sum /
          ((batch.articles.filter
            (fun a => 0 < a.antisemiticStats.analyzedComments)).length : ℚ))) := by
  rw [generateArticles_fst] at hrun
  by_cases hfail : fenv.outputFail = none
  case neg => rw [if_neg hfail] at hrun; exact absurd hrun (by simp)
  rw [if_pos hfail] at hrun
  injection hrun with hb
  subst hb
  have harts : (runState pct env fenv threads fs).articles =
      loadProgress fs.progress ++
        (remainingThreadsOf threads fs).filterMap
          (fun t => (analyzeThread pct env t).toOption) := by
    rw [runState, runThreads_articles]
  have hmem : ∀ a ∈ (runState pct env fenv threads fs).articles,
      0 < a.antisemiticStats.analyzedComments →
      ∃ q, a.antisemiticStats.percentage = .num q := by
    intro a ha hpos
    rw [harts, List.mem_append] at ha
    cases ha with
    | inl h => exact hck a h hpos
    | inr h =>
      rw [List.mem_filterMap] at h
      obtain ⟨t, _, hft⟩ := h
      exact ⟨_, (analyzeThread_percentage_spec pct env t a (toOption_eq_some _ _ hft)).1 hpos⟩
  have htot : (runState pct env fenv threads fs).totalAntisemiticPercentage =
      .num (0 + (((runState pct env fenv threads fs).articles.filter
          (fun a => 0 < a.antisemiticStats.analyzedComments)).map
          (fun a => a.antisemiticStats.percentage.toQ)).sum) := by
    have hstep : (runState pct env fenv threads fs).totalAntisemiticPercentage =
        ((runState pct env fenv threads fs).articles.foldl
          (fun sum a =>
            if 0 < a.antisemiticStats.analyzedComments then
              jsAdd sum a.antisemiticStats.percentage
            else sum)
          (JSNum.num 0)) := by
      rw [harts, List.foldl_append]
      rw [runState, runThreads_totalPct]
    rw [hstep]
    exact foldl_pct_num _ hmem 0
  constructor
  · intro h0
    have h0' : ((runState pct env fenv threads fs).articles.filter
        (fun a => 0 < a.antisemiticStats.analyzedComments)).length = 0 := h0
    simp only [builtBatch]
    rw [h0']
    rfl
  · intro hpos
    have hpos' : 0 < ((runState pct env fenv threads fs).articles.filter
        (fun a => 0 < a.antisemiticStats.analyzedComments)).length := hpos
    simp only [builtBatch]
    rw [if_pos hpos', htot, jsDivByNat_num, if_neg (by omega), zero_add]

end PolAi

namespace PolAi

/-- The article list of every batch a run returns. -/
theorem generateArticles_ok_batch (pct : ℚ) (env : Env) (fenv : FailEnv)
    (threads : List Thread) (fs : FS) (batch : ArticleBatch)
    (h : (generateArticles pct env fenv threads fs).1 = .ok batch) :
    batch.articles = loadProgress fs.progress ++
      (remainingThreadsOf threads fs).filterMap
        (fun t => (analyzeThread pct env t).toOption) := by
  rw [generateArticles_fst] at h
  by_cases hfail : fenv.outputFail = none
  · rw [if_pos hfail] at h
    injection h with h
    subst h
    show (runState pct env fenv threads fs).articles = _
    rw [runState, runThreads_articles]
  · rw [if_neg hfail] at h
    exact absurd h (by simp)

/-- The thread id of every record `analyzeThread` returns. -/
theorem analyzeThread_threadId (pct : ℚ) (env : Env) (thread : Thread)
    (a : ArticleAnalysis) (h : analyzeThread pct env thread = .ok a) :
    a.threadId = thread.no := by
  rw [analyzeThread] at h
  cases hchat : env.articleChat thread with
  | none => rw [hchat] at h; exact absurd h (by simp)
  | some response =>
    rw [hchat] at h
    injection h with h
    subst h
    rfl

/-- C2 (amended): for every thread list with DISTINCT thread identifiers
(the spec's identity invariant; the counterexample shows the claim fails
without it) and every stale checkpoint whose records are a strict subset of
the full run's records, the resumed run skips exactly the threads whose
identifiers appear in the checkpoint and analyzes the rest, the
checkpointed records appear unchanged as a prefix of the result, and the
resumed run's record set equals the full run's record set (deterministic
stub completion service). -/
theorem c2_resume_idempotent (pct : ℚ) (env : Env) (threads : List Thread)
    (ckpt : List ArticleAnalysis) (fullB resumedB : ArticleBatch)
    (hids : (threads.map Thread.no).Nodup)
    (hfull : (generateArticles pct env noFail threads
        { progress := .absent, output := none, temp := none }).1 = .ok fullB)
    (hres : (generateArticles pct env noFail threads
        { progress := .valid ckpt, output := none, temp := none }).1 = .ok resumedB)
    (hsub : ∀ r ∈ ckpt, r ∈ fullB.articles)
    (_hstrict : ∃ r ∈ fullB.articles, r ∉ ckpt) :
    resumedB.articles =
      ckpt ++ (threads.filter
          (fun t => !((ckpt.map ArticleAnalysis.threadId).contains t.no))).filterMap
        (fun t => (analyzeThread pct env t).toOption) ∧
    (∀ r, r ∈ resumedB.articles ↔ r ∈ fullB.articles) := by
  have hfullArts : fullB.articles =
      threads.filterMap (fun t => (analyzeThread pct env t).toOption) := by
    rw [generateArticles_ok_batch pct env noFail threads _ fullB hfull, remainingThreadsOf]
    rw [show loadProgress ProgressData.absent = [] from rfl]
    rw [List.filter_eq_self.mpr (by intro t _; rfl)]
    rfl
  have hresArts : resumedB.articles =
      ckpt ++ (threads.filter
          (fun t => !((ckpt.map ArticleAnalysis.threadId).contains t.no))).filterMap
        (fun t => (analyzeThread pct env t).toOption) := by
    rw [generateArticles_ok_batch pct env noFail threads _ resumedB hres, remainingThreadsOf]
    rfl
  refine ⟨hresArts, ?_⟩
  intro r
  rw [hresArts, hfullArts, List.mem_append]
  constructor
  · intro h
    cases h with
    | inl h =>
      have := hsub r h
      rwa [hfullArts] at this
    | inr h =>
      exact (((List.filter_sublist threads).filterMap
        (fun t => (analyzeThread pct env t).toOption)).mem h)
  · intro h
    rw [List.mem_filterMap] at h
    obtain ⟨t, ht, hft⟩ := h
    by_cases hc : (ckpt.map ArticleAnalysis.threadId).contains t.no
    · left
      obtain ⟨i, hiC, hieq⟩ := List.mem_map.mp (List.elem_iff.mp hc)
      have hiFull := hsub i hiC
      rw [hfullArts, List.mem_filterMap] at hiFull
      obtain ⟨t', ht', hft'⟩ := hiFull
      have hno : t'.no = t.no := by
        rw [← analyzeThread_threadId pct env t' i (toOption_eq_some _ _ hft'), hieq]
      have hteq : t' = t :=
        List.inj_on_of_nodup_map hids ht' ht hno
      rw [hteq] at hft'
      rw [hft'] at hft
      injection hft with hft
      rw [← hft]
      exact hiC
    · right
      rw [List.mem_filterMap]
      exact ⟨t, List.mem_filter.mpr ⟨ht, by simpa using hc⟩, hft⟩

end PolAi

namespace PolAi

theorem generateArticles_dup_full_eval :
    (generateArticles 30 dupEnv noFail [dupThreadA, dupThreadB]
        { progress := .absent, output := none, temp := none }).1 = .ok dupFullBatch := by
  rw [generateArticles_fst]
  rw [if_pos (show noFail.outputFail = none from rfl), Except.ok.injEq]
  rw [builtBatch, runState]
  rw [show remainingThreadsOf [dupThreadA, dupThreadB]
      { progress := .absent, output := none, temp := none } =
      [dupThreadA, dupThreadB] from rfl]
  simp only [runThreads, analyzeThread_dupA_eval, analyzeThread_dupB_eval]
  rfl

theorem generateArticles_dup_resumed_eval :
    (generateArticles 30 dupEnv noFail [dupThreadA, dupThreadB]
        { progress := .valid [recA], output := none, temp := none }).1 = .ok dupResumedBatch := by
  rw [generateArticles_fst]
  rw [if_pos (show noFail.outputFail = none from rfl), Except.ok.injEq]
  rfl

/-- C2 counterexample: with duplicate thread identifiers in the input the
claim fails — the checkpoint `[recA]` is a strict subset of the full run's
records, yet the resumed run skips BOTH threads with id 5 and its record
set misses `recB`. -/
theorem c2_resume_counterexample :
    (generateArticles 30 dupEnv noFail [dupThreadA, dupThreadB]
        { progress := .absent, output := none, temp := none }).1 = .ok dupFullBatch ∧
    (generateArticles 30 dupEnv noFail [dupThreadA, dupThreadB]
        { progress := .valid [recA], output := none, temp := none }).1 = .ok dupResumedBatch ∧
    (∀ r ∈ [recA], r ∈ dupFullBatch.articles) ∧
    (∃ r ∈ dupFullBatch.articles, r ∉ [recA]) ∧
    recB ∈ dupFullBatch.articles ∧
    recB ∉ dupResumedBatch.articles :=
  ⟨generateArticles_dup_full_eval, generateArticles_dup_resumed_eval,
   by decide, ⟨recB, by decide, by decide⟩, by decide, by decide⟩

/-- C2 witness -/
theorem c2_resume_idempotent_witness :
    (sampleBatch.articles =
      [] ++ ([sampleThread].filter
          (fun t => !((([] : List ArticleAnalysis).map ArticleAnalysis.threadId).contains t.no))).filterMap
        (fun t => (analyzeThread 30 sampleEnv t).toOption)) ∧
    (∀ r, r ∈ sampleBatch.articles ↔ r ∈ sampleBatch.articles) :=
  c2_resume_idempotent 30 sampleEnv [sampleThread] [] sampleBatch sampleBatch
    (by simp)
    (generateArticles_sample_eval _ rfl)
    (generateArticles_sample_eval _ rfl)
    (fun r hr => absurd hr (List.not_mem_nil r))
    ⟨sampleRecord, by simp [sampleBatch], List.not_mem_nil sampleRecord⟩

end PolAi

namespace PolAi

/-- C6 witness -/
theorem c6_average_flagged_witness :
    sampleBatch.batchStats.averageAntisemiticPercentage =
      .num (((sampleBatch.articles.filter
          (fun a => 0 < a.antisemiticStats.analyzedComments)).map
          (fun a => a.antisemiticStats.percentage.toQ)).sum /
        ((sampleBatch.articles.filter
          (fun a => 0 < a.antisemiticStats.analyzedComments)).length : ℚ)) :=
  (c6_average_flagged 30 sampleEnv noFail [sampleThread]
      { progress := .absent, output := none, temp := none } sampleBatch
      (generateArticles_sample_eval _ rfl)
      (fun r hr => absurd hr (List.not_mem_nil r))).2 (by decide)

end PolAi
